import Mathlib

/-!
Shallow embedding of the entitlement/ledger core of the thanglishpro server:
`src/shared/pricing.ts`, `src/server/types.ts`, `src/server/utils/userStore.ts`,
and the HTTP handlers of the server entry file (`/subscription/start-trial`,
`/subscription/confirm`, `/usage/consume`).

Modeling conventions:
* JS numbers holding minute quantities are modeled as `ℚ` (the consume handler
  accepts fractional minutes and the arithmetic involved — comparison, addition,
  subtraction, `Math.ceil`, small multiplication — is exact); paise amounts and
  timestamps (`Date.now()` milliseconds) are `ℤ`.
* The `users.json` document is an association list `Store`.
* A mutator passed to `updateUser` is a pure function
  `UserAccount → Except String UserAccount`; a thrown JS error is
  `Except.error`.  `updateUser` rewrites the document only after the mutator
  returns without error, so on error the stored record is unchanged (the
  in-place mutation the JS mutator may have performed on its local copy before
  throwing — e.g. `consumeTrialMinutes` flipping `active` on an expired trial —
  is discarded: the next operation re-reads the file).
* The promise chain `withLock` serializes operations; it is modeled by running
  a list of operations sequentially (`runQueue`); a rejected operation leaves
  the store as its own semantics dictate and never blocks later operations,
  because the chain continues from `run.catch(() => undefined)`.
-/

set_option maxRecDepth 10000

namespace Thanglish

/-! ### pricing.ts -/

inductive PlanId where
  | editorBasic
  | creatorPro
  | editorMax
  | studioAgency
deriving DecidableEq, Repr

structure SubscriptionPlan where
  id : PlanId
  name : String
  minutesIncluded : ℚ
  priceInPaise : Int
  targetUser : String
deriving DecidableEq, Repr

def PLANS : PlanId → SubscriptionPlan
  | .editorBasic => ⟨.editorBasic, "Editor Basic", 200, 29900, "Students / beginners"⟩
  | .creatorPro => ⟨.creatorPro, "Creator Pro", 500, 59900, "Freelancers"⟩
  | .editorMax => ⟨.editorMax, "Editor Max", 1200, 99900, "Mid-level freelancers"⟩
  | .studioAgency => ⟨.studioAgency, "Studio/Agency", 2400, 149900, "Teams / agencies"⟩

def LOW_BALANCE_THRESHOLD_PAISE : Int := 2000
def MIN_WALLET_TOPUP_PAISE : Int := 10000
def TRIAL_DURATION_MS : Int := 2 * 24 * 60 * 60 * 1000
def TRIAL_MINUTES : ℚ := 60
def WALLET_COST_PER_MINUTE_PAISE : Int := 100

/-! ### types.ts -/

structure TrialInfo where
  startedAt : Int
  expiresAt : Int
  consumedMinutes : ℚ
  active : Bool
  maxMinutes : ℚ
deriving DecidableEq, Repr

structure ActivePlan where
  planId : PlanId
  activatedAt : Int
  expiresAt : Option Int
  remainingMinutes : ℚ
deriving DecidableEq, Repr

inductive PaymentType where
  | plan
  | wallet
deriving DecidableEq, Repr

structure PaymentRecord where
  type : PaymentType
  razorpayOrderId : String
  razorpayPaymentId : String
  amountInPaise : Int
  planId : Option PlanId
  createdAt : Int
deriving DecidableEq, Repr

structure UserAccount where
  userId : String
  email : Option String
  name : Option String
  picture : Option String
  walletBalancePaise : Int
  trial : Option TrialInfo
  activePlan : Option ActivePlan
  paymentHistory : List PaymentRecord
  createdAt : Int
  updatedAt : Int
deriving DecidableEq, Repr

/-- Profile hints passed to `getOrCreateUser` (the
`Pick<UserAccount, 'email' | 'name' | 'picture'>` argument). -/
structure ProfileHints where
  email : Option String
  name : Option String
  picture : Option String
deriving DecidableEq, Repr

/-! ### userStore.ts: the store -/

/-- The parsed `users.json` document: accountId keyed record table. -/
def Store := List (String × UserAccount)
deriving DecidableEq, Repr

/-- Lookup `users[userId]`. -/
def Store.find : Store → String → Option UserAccount
  | [], _ => none
  | (k, v) :: rest, uid => if k = uid then some v else Store.find rest uid

/-- Assignment `users[userId] = u` followed by `writeAllUsers`. -/
def Store.set : Store → String → UserAccount → Store
  | [], uid, u => [(uid, u)]
  | (k, v) :: rest, uid, u =>
      if k = uid then (uid, u) :: rest else (k, v) :: Store.set rest uid u

/-! ### userStore.ts: operations

Each exported operation is `withLock`-wrapped in the source; with the lock
modeled as sequential execution, each operation is a pure function from the
store (plus the current `Date.now()` value `t`) to the new store and its
result.  A mutator is the pure rendering of the callback passed to
`updateUser`. -/

def Mutator := UserAccount → Except String UserAccount

/-- Embedding of `updateUser`: load the record, apply the mutator, refresh
`updatedAt`, write the whole document back.  A mutator error propagates and
nothing is written. -/
def updateUser (s : Store) (userId : String) (mutator : Mutator) (t : Int) :
    Except String (Store × UserAccount) :=
  match s.find userId with
  | none => .error ("User " ++ userId ++ " not found")
  | some existing =>
    match mutator existing with
    | .error e => .error e
    | .ok u =>
      let u := { u with updatedAt := t }
      .ok (s.set userId u, u)

/-- Embedding of `getOrCreateUser`: return the existing record (merging
newly supplied profile hints with `??` fallback, refreshing `updatedAt` and
rewriting the document only when hints were supplied), else create a fresh
zeroed record. -/
def getOrCreateUser (s : Store) (userId : String) (profile : Option ProfileHints)
    (t : Int) : Store × UserAccount :=
  match s.find userId with
  | some existing =>
    match profile with
    | some p =>
      let u : UserAccount :=
        { existing with
          email := match p.email with | some e => some e | none => existing.email
          name := match p.name with | some n => some n | none => existing.name
          picture := match p.picture with | some pic => some pic | none => existing.picture
          updatedAt := t }
      (s.set userId u, u)
    | none => (s, existing)
  | none =>
    let fresh : UserAccount :=
      { userId := userId
        email := match profile with | some p => p.email | none => none
        name := match profile with | some p => p.name | none => none
        picture := match profile with | some p => p.picture | none => none
        walletBalancePaise := 0
        trial := none
        activePlan := none
        paymentHistory := []
        createdAt := t
        updatedAt := t }
    (s.set userId fresh, fresh)

/-- Embedding of `loadUser` (read-only fetch). -/
def loadUser (s : Store) (userId : String) : Option UserAccount :=
  s.find userId

/-- Mutator of `recordPayment`: unshift the new record, cap history at 50. -/
def recordPaymentM (type : PaymentType) (amountInPaise : Int)
    (planId : Option PlanId) (razorpayOrderId razorpayPaymentId : String)
    (t : Int) : Mutator := fun u =>
  .ok { u with paymentHistory :=
          (({ type := type
              razorpayOrderId := razorpayOrderId
              razorpayPaymentId := razorpayPaymentId
              amountInPaise := amountInPaise
              planId := planId
              createdAt := t } : PaymentRecord) :: u.paymentHistory).take 50 }

/-- Mutator of `activatePlan`: replace `activePlan` wholesale. -/
def activatePlanM (p : ActivePlan) : Mutator := fun u =>
  .ok { u with activePlan := some p }

/-- Mutator of `setTrialInfo`. -/
def setTrialInfoM (trial : TrialInfo) : Mutator := fun u =>
  .ok { u with trial := some trial }

/-- Mutator of `adjustWallet`: validated atomic delta; throws before any
change when the new balance would be negative. -/
def adjustWalletM (deltaPaise : Int) : Mutator := fun u =>
  let next := u.walletBalancePaise + deltaPaise
  if next < 0 then .error "Insufficient wallet balance"
  else .ok { u with walletBalancePaise := next }

/-- Mutator of `clearTrial`. -/
def clearTrialM : Mutator := fun u => .ok { u with trial := none }

/-- Mutator of `ensureActivePlanMinutes`: debit plan minutes after checking
availability; never consults `expiresAt`. -/
def ensureActivePlanMinutesM (minutes : ℚ) : Mutator := fun u =>
  match u.activePlan with
  | none => .error "No active plan"
  | some p =>
    if p.remainingMinutes < minutes then .error "Insufficient plan minutes"
    else .ok { u with activePlan := some { p with remainingMinutes := p.remainingMinutes - minutes } }

/-- Mutator of `consumeTrialMinutes`.  In the source, the expired branch sets
`trial.active = false` on its local copy and then throws; because `updateUser`
persists nothing on a throw, the stored record is unchanged, so the error
outcome alone is the observable behavior. -/
def consumeTrialMinutesM (minutes : ℚ) (t : Int) : Mutator := fun u =>
  match u.trial with
  | none => .error "Trial inactive"
  | some tr =>
    if tr.active = false then .error "Trial inactive"
    else if tr.expiresAt < t then .error "Trial expired"
    else if tr.maxMinutes < tr.consumedMinutes + minutes then .error "Trial minutes exceeded"
    else .ok { u with trial := some { tr with consumedMinutes := tr.consumedMinutes + minutes } }

/-- Exported `adjustWallet` = `updateUser` with `adjustWalletM`. -/
def adjustWallet (s : Store) (userId : String) (deltaPaise : Int) (t : Int) :
    Except String (Store × UserAccount) :=
  updateUser s userId (adjustWalletM deltaPaise) t

/-- Exported `consumeTrialMinutes` = `updateUser` with `consumeTrialMinutesM`. -/
def consumeTrialMinutes (s : Store) (userId : String) (minutes : ℚ) (t : Int) :
    Except String (Store × UserAccount) :=
  updateUser s userId (consumeTrialMinutesM minutes t) t

/-- Exported `ensureActivePlanMinutes`. -/
def ensureActivePlanMinutes (s : Store) (userId : String) (minutes : ℚ) (t : Int) :
    Except String (Store × UserAccount) :=
  updateUser s userId (ensureActivePlanMinutesM minutes) t

/-- Exported `setTrialInfo`. -/
def setTrialInfo (s : Store) (userId : String) (trial : TrialInfo) (t : Int) :
    Except String (Store × UserAccount) :=
  updateUser s userId (setTrialInfoM trial) t

/-- Exported `activatePlan`. -/
def activatePlan (s : Store) (userId : String) (p : ActivePlan) (t : Int) :
    Except String (Store × UserAccount) :=
  updateUser s userId (activatePlanM p) t

/-- Exported `recordPayment`. -/
def recordPayment (s : Store) (userId : String) (type : PaymentType)
    (amountInPaise : Int) (planId : Option PlanId)
    (razorpayOrderId razorpayPaymentId : String) (t : Int) :
    Except String (Store × UserAccount) :=
  updateUser s userId
    (recordPaymentM type amountInPaise planId razorpayOrderId razorpayPaymentId t) t

/-! ### Server handlers (server entry file) -/

/-- Funding source reported by `POST /usage/consume`. -/
inductive Source where
  | plan
  | trial
  | wallet
deriving DecidableEq, Repr

/-- Outcome of `POST /usage/consume` (after the auth gate). -/
inductive ConsumeResult where
  /-- 400 "Invalid minutes value". -/
  | badRequest
  /-- 404 "User not found". -/
  | notFound
  /-- 200 with the chosen source, and the debited paise for the wallet branch. -/
  | ok (source : Source) (debitedPaise : Option Int)
  /-- 402 "Insufficient balance" carrying `requiredPaise`. -/
  | insufficientBalance (requiredPaise : Int)
  /-- 400 from the catch block around the mutations. -/
  | mutationError (message : String)
deriving DecidableEq, Repr

/-- Embedding of the `POST /usage/consume` handler.  `minutes` is the parsed
`Number(minutes)`; the guard `!Number.isFinite(x) || x <= 0` is `minutes ≤ 0`
on `ℚ`.  The three funding branches follow the source order: plan (debited via
`activatePlan` with the spread-updated record), trial (via
`consumeTrialMinutes`), wallet (cost `⌈minutes⌉ *
WALLET_COST_PER_MINUTE_PAISE`, debited via `adjustWallet`), else a 402 with
the computed cost and no mutation. -/
def consume (s : Store) (userId : String) (minutes : ℚ) (t : Int) :
    Store × ConsumeResult :=
  if minutes ≤ 0 then (s, .badRequest)
  else
    match s.find userId with
    | none => (s, .notFound)
    | some user =>
      let planBranch : Option (Store × ConsumeResult) :=
        match user.activePlan with
        | some p =>
          if minutes ≤ p.remainingMinutes then
            some (match activatePlan s userId
                    { p with remainingMinutes := p.remainingMinutes - minutes } t with
              | .ok (s1, _) => (s1, .ok .plan none)
              | .error e => (s, .mutationError e))
          else none
        | none => none
      match planBranch with
      | some r => r
      | none =>
        let trialBranch : Option (Store × ConsumeResult) :=
          match user.trial with
          | some tr =>
            if tr.active ∧ t < tr.expiresAt then
              if tr.consumedMinutes + minutes ≤ tr.maxMinutes then
                some (match consumeTrialMinutes s userId minutes t with
                  | .ok (s1, _) => (s1, .ok .trial none)
                  | .error e => (s, .mutationError e))
              else none
            else none
          | none => none
        match trialBranch with
        | some r => r
        | none =>
          let costPaise := ⌈minutes⌉ * WALLET_COST_PER_MINUTE_PAISE
          if costPaise ≤ user.walletBalancePaise then
            match adjustWallet s userId (-costPaise) t with
            | .ok (s1, _) => (s1, .ok .wallet (some costPaise))
            | .error e => (s, .mutationError e)
          else (s, .insufficientBalance costPaise)

/-- Outcome of `POST /subscription/start-trial` (after the auth gate). -/
inductive StartTrialResult where
  /-- 404 "User not found". -/
  | notFound
  /-- 200 returning the existing trial with message "Trial already active". -/
  | alreadyActive (trial : TrialInfo)
  /-- 403 "Trial already used". -/
  | alreadyUsed
  /-- 200 returning the freshly granted trial. -/
  | started (trial : TrialInfo)
  /-- Propagated store failure. -/
  | storeError (message : String)
deriving DecidableEq, Repr

/-- Embedding of the `POST /subscription/start-trial` handler: a present trial
that is still active and unexpired is answered 200 with the existing trial; any
other present trial is answered 403; otherwise a fresh
`TRIAL_DURATION_MS`/`TRIAL_MINUTES` trial is stored via `setTrialInfo`. -/
def startTrial (s : Store) (userId : String) (t : Int) : Store × StartTrialResult :=
  match s.find userId with
  | none => (s, .notFound)
  | some user =>
    match user.trial with
    | some tr =>
      if tr.active ∧ t < tr.expiresAt then (s, .alreadyActive tr)
      else (s, .alreadyUsed)
    | none =>
      let trial : TrialInfo :=
        { startedAt := t
          expiresAt := t + TRIAL_DURATION_MS
          consumedMinutes := 0
          active := true
          maxMinutes := TRIAL_MINUTES }
      match setTrialInfo s userId trial t with
      | .ok (s1, _) => (s1, .started trial)
      | .error e => (s, .storeError e)

/-- Embedding of the user view returned by `GET /status`: the handler flips
`trial.active` on its freshly parsed local copy when `expiresAt < Date.now()`
and returns that copy; it never writes the document, so the handler's type here
has no store output — the store is untouched by construction. -/
def statusView (s : Store) (userId : String) (t : Int) : Option UserAccount :=
  match s.find userId with
  | none => none
  | some user =>
    match user.trial with
    | some tr =>
      if tr.expiresAt < t then some { user with trial := some { tr with active := false } }
      else some user
    | none => some user

/-! ### HMAC-SHA256 (the `crypto.createHmac('sha256', secret)` call of the
confirm handler), implemented from FIPS 180-4 / RFC 2104 over byte lists, with
32-bit words as `Nat` values below `2^32`. -/

/-- Truncate to a 32-bit word. -/
def w32 (x : Nat) : Nat := x % 4294967296

/-- Rotate a 32-bit word right by `n`. -/
def rotr32 (n x : Nat) : Nat := w32 ((x >>> n) ||| (x <<< (32 - n)))

/-- The 64 SHA-256 round constants (FIPS 180-4 §4.2.2, written in decimal). -/
def shaK : List Nat :=
  [1116352408, 1899447441, 3049323471, 3921009573, 961987163, 1508970993,
   2453635748, 2870763221, 3624381080, 310598401, 607225278, 1426881987,
   1925078388, 2162078206, 2614888103, 3248222580, 3835390401, 4022224774,
   264347078, 604807628, 770255983, 1249150122, 1555081692, 1996064986,
   2554220882, 2821834349, 2952996808, 3210313671, 3336571891, 3584528711,
   113926993, 338241895, 666307205, 773529912, 1294757372, 1396182291,
   1695183700, 1986661051, 2177026350, 2456956037, 2730485921, 2820302411,
   3259730800, 3345764771, 3516065817, 3600352804, 4094571909, 275423344,
   430227734, 506948616, 659060556, 883997877, 958139571, 1322822218,
   1537002063, 1747873779, 1955562222, 2024104815, 2227730452, 2361852424,
   2428436474, 2756734187, 3204031479, 3329325298]

/-- The eight SHA-256 working variables. -/
structure H8 where
  a : Nat
  b : Nat
  c : Nat
  d : Nat
  e : Nat
  f : Nat
  g : Nat
  h : Nat
deriving Repr, DecidableEq

/-- The SHA-256 initial hash value (FIPS 180-4 §5.3.3, written in decimal). -/
def h0 : H8 :=
  ⟨1779033703, 3144134277, 1013904242, 2773480762,
   1359893119, 2600822924, 528734635, 1541459225⟩

/-- Big-endian grouping of bytes into 32-bit words. -/
def toWords : List Nat → List Nat
  | b0 :: b1 :: b2 :: b3 :: rest =>
      ((b0 <<< 24) ||| (b1 <<< 16) ||| (b2 <<< 8) ||| b3) :: toWords rest
  | _ => []

/-- One message-schedule extension step on a newest-first word list. -/
def extendStep (ws : List Nat) : List Nat :=
  let w2 := ws.getD 1 0
  let w7 := ws.getD 6 0
  let w15 := ws.getD 14 0
  let w16 := ws.getD 15 0
  let s0 := (rotr32 7 w15) ^^^ (rotr32 18 w15) ^^^ (w15 >>> 3)
  let s1 := (rotr32 17 w2) ^^^ (rotr32 19 w2) ^^^ (w2 >>> 10)
  w32 (w16 + s0 + w7 + s1) :: ws

/-- The 64-entry message schedule of one block (given its 16 words). -/
def schedule (block : List Nat) : List Nat :=
  (extendStep^[48] block.reverse).reverse

/-- One SHA-256 round. -/
def round1 (st : H8) (kw : Nat × Nat) : H8 :=
  let S1 := rotr32 6 st.e ^^^ rotr32 11 st.e ^^^ rotr32 25 st.e
  let ch := (st.e &&& st.f) ^^^ ((st.e ^^^ 0xffffffff) &&& st.g)
  let t1 := w32 (st.h + S1 + ch + kw.1 + kw.2)
  let S0 := rotr32 2 st.a ^^^ rotr32 13 st.a ^^^ rotr32 22 st.a
  let maj := (st.a &&& st.b) ^^^ (st.a &&& st.c) ^^^ (st.b &&& st.c)
  let t2 := w32 (S0 + maj)
  ⟨w32 (t1 + t2), st.a, st.b, st.c, w32 (st.d + t1), st.e, st.f, st.g⟩

/-- Compression of one 512-bit block into the running state. -/
def compress (st : H8) (block : List Nat) : H8 :=
  let fin := (List.zip shaK (schedule block)).foldl round1 st
  ⟨w32 (st.a + fin.a), w32 (st.b + fin.b), w32 (st.c + fin.c), w32 (st.d + fin.d),
   w32 (st.e + fin.e), w32 (st.f + fin.f), w32 (st.g + fin.g), w32 (st.h + fin.h)⟩

/-- SHA-256 padding: `0x80`, zeros to 56 mod 64, 8-byte big-endian bit length. -/
def padMessage (msg : List Nat) : List Nat :=
  let len := msg.length
  let bitLen := len * 8
  let padZeros := (119 - len % 64) % 64
  msg ++ 0x80 :: List.replicate padZeros 0 ++
    [(bitLen >>> 56) % 256, (bitLen >>> 48) % 256, (bitLen >>> 40) % 256, (bitLen >>> 32) % 256,
     (bitLen >>> 24) % 256, (bitLen >>> 16) % 256, (bitLen >>> 8) % 256, bitLen % 256]

/-- Fuel-indexed 64-byte chunking (fuel bounds the recursion structurally). -/
def chunks64Aux : Nat → List Nat → List (List Nat)
  | 0, _ => []
  | _, [] => []
  | fuel + 1, x :: xs => ((x :: xs).take 64) :: chunks64Aux fuel ((x :: xs).drop 64)

/-- Split a byte list into 64-byte blocks. -/
def chunks64 (l : List Nat) : List (List Nat) := chunks64Aux l.length l

/-- Big-endian bytes of a 32-bit word. -/
def wordBytes (x : Nat) : List Nat :=
  [(x >>> 24) % 256, (x >>> 16) % 256, (x >>> 8) % 256, x % 256]

/-- The SHA-256 digest (32 bytes) of a byte list. -/
def sha256 (msg : List Nat) : List Nat :=
  let fin := (chunks64 (padMessage msg)).foldl (fun st b => compress st (toWords b)) h0
  wordBytes fin.a ++ wordBytes fin.b ++ wordBytes fin.c ++ wordBytes fin.d ++
    wordBytes fin.e ++ wordBytes fin.f ++ wordBytes fin.g ++ wordBytes fin.h

/-- Lower-case hex digit. -/
def hexChar (n : Nat) : Char := if n < 10 then Char.ofNat (48 + n) else Char.ofNat (87 + n)

/-- Lower-case hex rendering of a byte list (`.digest('hex')`). -/
def bytesToHex (l : List Nat) : String :=
  String.mk (l.foldr (fun b acc => hexChar (b / 16) :: hexChar (b % 16) :: acc) [])

/-- HMAC-SHA256 over byte lists (RFC 2104, 64-byte block size). -/
def hmacSha256 (key msg : List Nat) : List Nat :=
  let k0 := if 64 < key.length then sha256 key else key
  let kp := k0 ++ List.replicate (64 - k0.length) 0
  sha256 ((kp.map fun b => b ^^^ 0x5c) ++ sha256 ((kp.map fun b => b ^^^ 0x36) ++ msg))

/-- Bytes of an ASCII string (every string involved here is ASCII, where UTF-8
agrees with the code points). -/
def strBytes (s : String) : List Nat := s.data.map Char.toNat

/-- The signature the confirm handler recomputes:
`createHmac('sha256', secret).update(orderId + '|' + paymentId).digest('hex')`. -/
def expectedSignature (secret orderId paymentId : String) : String :=
  bytesToHex (hmacSha256 (strBytes secret) (strBytes (orderId ++ "|" ++ paymentId)))

/-- Outcome of `POST /subscription/confirm` (after the auth gate). -/
inductive ConfirmResult where
  /-- 400 "Missing Razorpay confirmation data". -/
  | missingData
  /-- 400 "Invalid signature". -/
  | invalidSignature
  /-- 400 "Invalid plan". -/
  | invalidPlan
  /-- 400 "Missing top-up amount". -/
  | missingAmount
  /-- 200, mutations applied and payment recorded. -/
  | confirmed
  /-- 500 from the catch block. -/
  | failed (message : String)
deriving DecidableEq, Repr

/-- Purchase intent of an order confirmation. -/
inductive Intent where
  | plan
  | wallet
deriving DecidableEq, Repr

/-- Embedding of the `POST /subscription/confirm` handler: reject empty
(JS-falsy) confirmation fields, recompute the HMAC and reject on mismatch
before any ledger mutation, then apply the plan purchase (plan replaced
wholesale, 30-day expiry) or wallet top-up (`!amountInPaise` also rejects a
zero amount), recording the payment either way. -/
def confirm (s : Store) (userId : String) (secret : String)
    (orderId paymentId signature : String) (intent : Intent)
    (planId : Option PlanId) (amountInPaise : Option Int) (t : Int) :
    Store × ConfirmResult :=
  if orderId = "" ∨ paymentId = "" ∨ signature = "" then (s, .missingData)
  else if expectedSignature secret orderId paymentId ≠ signature then (s, .invalidSignature)
  else
    match intent with
    | .plan =>
      match planId with
      | none => (s, .invalidPlan)
      | some pid =>
        let plan := PLANS pid
        match activatePlan s userId
            { planId := plan.id
              activatedAt := t
              expiresAt := some (t + 30 * 24 * 60 * 60 * 1000)
              remainingMinutes := plan.minutesIncluded } t with
        | .error e => (s, .failed e)
        | .ok (s1, _) =>
          match recordPayment s1 userId .plan plan.priceInPaise (some plan.id)
              orderId paymentId t with
          | .error e => (s1, .failed e)
          | .ok (s2, _) => (s2, .confirmed)
    | .wallet =>
      match amountInPaise with
      | none => (s, .missingAmount)
      | some amt =>
        if amt = 0 then (s, .missingAmount)
        else
          match adjustWallet s userId amt t with
          | .error e => (s, .failed e)
          | .ok (s1, _) =>
            match recordPayment s1 userId .wallet amt none orderId paymentId t with
            | .error e => (s1, .failed e)
            | .ok (s2, _) => (s2, .confirmed)

/-! ### The serialized mutation queue

`withLock` chains every exported store operation onto a single promise:
`run = chain.then(fn); chain = run.catch(() => undefined); return run`.
Operations therefore execute one at a time in arrival order, and a rejected
operation is caught before the next is chained, so it never blocks or poisons
the queue.  The queue is modeled as the sequential execution of the arrival
list. -/

/-- One enqueued store operation (the exported `userStore` API). -/
inductive LedgerOp where
  | getOrCreate (userId : String) (profile : Option ProfileHints)
  | adjustWallet (userId : String) (deltaPaise : Int)
  | recordPayment (userId : String) (type : PaymentType) (amountInPaise : Int)
      (planId : Option PlanId) (orderId paymentId : String)
  | activatePlan (userId : String) (p : ActivePlan)
  | setTrialInfo (userId : String) (trial : TrialInfo)
  | clearTrial (userId : String)
  | ensureActivePlanMinutes (userId : String) (minutes : ℚ)
  | consumeTrialMinutes (userId : String) (minutes : ℚ)
deriving Repr

/-- Lift an `updateUser` outcome to a store transition: on error the document
was never rewritten, so the store is unchanged. -/
def liftUpdate (s : Store) : Except String (Store × UserAccount) →
    Store × Except String UserAccount
  | .ok (s1, u) => (s1, .ok u)
  | .error e => (s, .error e)

/-- Execute one enqueued operation at time `t`. -/
def runOp (s : Store) (op : LedgerOp) (t : Int) : Store × Except String UserAccount :=
  match op with
  | .getOrCreate uid profile =>
    let r := getOrCreateUser s uid profile t
    (r.1, .ok r.2)
  | .adjustWallet uid δ => liftUpdate s (adjustWallet s uid δ t)
  | .recordPayment uid ty amount planId oid pid =>
    liftUpdate s (recordPayment s uid ty amount planId oid pid t)
  | .activatePlan uid p => liftUpdate s (activatePlan s uid p t)
  | .setTrialInfo uid trial => liftUpdate s (setTrialInfo s uid trial t)
  | .clearTrial uid => liftUpdate s (updateUser s uid clearTrialM t)
  | .ensureActivePlanMinutes uid m => liftUpdate s (ensureActivePlanMinutes s uid m t)
  | .consumeTrialMinutes uid m => liftUpdate s (consumeTrialMinutes s uid m t)

/-- The serialized queue: operations run one at a time in arrival (FIFO)
order; each caller receives its own operation's result; a rejected operation
leaves the store per its own semantics and the queue continues. -/
def runQueue (s : Store) : List (LedgerOp × Int) →
    Store × List (Except String UserAccount)
  | [] => (s, [])
  | (op, t) :: rest =>
    let r := runOp s op t
    let rs := runQueue r.1 rest
    (rs.1, r.2 :: rs.2)

/-! ### Branch conditions of the entitlement resolver, as written in the
handler -/

/-- The plan-branch condition
`user.activePlan && user.activePlan.remainingMinutes >= usageMinutes`. -/
def planCovers (u : UserAccount) (minutes : ℚ) : Bool :=
  match u.activePlan with
  | some p => decide (minutes ≤ p.remainingMinutes)
  | none => false

/-- The trial-branch condition: `user.trial && user.trial.active &&
user.trial.expiresAt > Date.now()` together with the inner cap check
`consumedMinutes + usageMinutes <= maxMinutes`. -/
def trialCovers (u : UserAccount) (minutes : ℚ) (t : Int) : Bool :=
  match u.trial with
  | some tr =>
      tr.active && decide (t < tr.expiresAt) &&
        decide (tr.consumedMinutes + minutes ≤ tr.maxMinutes)
  | none => false

/-! ### Sample records used by concrete scenarios -/

/-- An account record with the given wallet balance, trial and plan, and all
other fields fixed. -/
def mkUser (wallet : Int) (trial : Option TrialInfo) (plan : Option ActivePlan) :
    UserAccount :=
  { userId := "u"
    email := none
    name := none
    picture := none
    walletBalancePaise := wallet
    trial := trial
    activePlan := plan
    paymentHistory := []
    createdAt := 0
    updatedAt := 0 }

/-! ## Helper lemmas -/

theorem Store.find_set_self (s : Store) (uid : String) (u : UserAccount) :
    (s.set uid u).find uid = some u := by
  induction s with
  | nil => simp [Store.set, Store.find]
  | cons kv rest ih =>
    obtain ⟨k, v⟩ := kv
    by_cases h : k = uid
    · simp [Store.set, Store.find, h]
    · simp [Store.set, Store.find, h, ih]

theorem Store.find_set_ne (s : Store) (uid k : String) (u : UserAccount)
    (h : k ≠ uid) : (s.set uid u).find k = s.find k := by
  induction s with
  | nil => simp [Store.set, Store.find, Ne.symm h]
  | cons kv rest ih =>
    obtain ⟨k', v'⟩ := kv
    by_cases hk : k' = uid
    · subst hk
      simp [Store.set, Store.find, Ne.symm h]
    · simp only [Store.set, if_neg hk, Store.find]
      by_cases hkk : k' = k
      · simp [hkk]
      · simp [hkk, ih]

/-- Whatever `Store.set` makes visible is the written record or an old one. -/
theorem Store.find_set_cases (s : Store) (uid k : String) (u v : UserAccount)
    (h : (s.set uid u).find k = some v) : v = u ∨ s.find k = some v := by
  by_cases hk : k = uid
  · subst hk
    rw [Store.find_set_self] at h
    exact Or.inl (Option.some_injective _ h).symm
  · rw [Store.find_set_ne _ _ _ _ hk] at h
    exact Or.inr h

theorem updateUser_ok (s : Store) (uid : String) (m : Mutator) (t : Int)
    (u u' : UserAccount) (hfind : s.find uid = some u) (hm : m u = .ok u') :
    updateUser s uid m t =
      .ok (s.set uid { u' with updatedAt := t }, { u' with updatedAt := t }) := by
  simp [updateUser, hfind, hm]

theorem updateUser_error (s : Store) (uid : String) (m : Mutator) (t : Int)
    (u : UserAccount) (e : String) (hfind : s.find uid = some u)
    (hm : m u = .error e) : updateUser s uid m t = .error e := by
  simp [updateUser, hfind, hm]

/-! ## C8: idempotence of getOrCreate without profile hints -/

/-- C8.  Calling `getOrCreateUser` twice with the same accountId and no
profile hints returns byte-identical records both times — the second call
returns the first call's record unchanged (no field, `updatedAt` included,
differs) and leaves the store exactly as the first call left it. -/
theorem getOrCreateUser_idempotent (s : Store) (uid : String) (t1 t2 : Int) :
    getOrCreateUser (getOrCreateUser s uid none t1).1 uid none t2 =
      ((getOrCreateUser s uid none t1).1, (getOrCreateUser s uid none t1).2) := by
  cases h : s.find uid with
  | some u => simp [getOrCreateUser, h]
  | none => simp [getOrCreateUser, h, Store.find_set_self]

/-! ## C3: start-trial on an account that already has a trial -/

/-- C3 counterexample.  An account whose existing trial is still active and
unexpired does NOT get the 403 `AlreadyGranted` answer the claim requires for
"any state": the handler answers 200 with the existing trial ("Trial already
active"). -/
theorem startTrial_activeTrial_not_403 :
    startTrial [("u", mkUser 0 (some ⟨0, 2000, 0, true, 60⟩) none)] "u" 1000 =
      ([("u", mkUser 0 (some ⟨0, 2000, 0, true, 60⟩) none)],
        .alreadyActive ⟨0, 2000, 0, true, 60⟩) ∧
    (startTrial [("u", mkUser 0 (some ⟨0, 2000, 0, true, 60⟩) none)] "u" 1000).2 ≠
      .alreadyUsed := by
  constructor
  · simp [startTrial, Store.find, mkUser]
  · simp [startTrial, Store.find, mkUser]

/-- C3 amended.  A start-trial request on an account that already has a trial
record never modifies the account: when the trial is active and unexpired the
handler returns the existing trial with a 200, and in every other state
(expired or deactivated — in particular a second request after the first trial
has expired) it fails with 403 `AlreadyGranted`. -/
theorem startTrial_existing_trial (s : Store) (uid : String) (u : UserAccount)
    (tr : TrialInfo) (t : Int) (hfind : s.find uid = some u)
    (htr : u.trial = some tr) :
    (tr.active = true → t < tr.expiresAt → startTrial s uid t = (s, .alreadyActive tr)) ∧
    (¬(tr.active = true ∧ t < tr.expiresAt) → startTrial s uid t = (s, .alreadyUsed)) := by
  constructor
  · intro ha hexp
    simp [startTrial, hfind, htr, ha, hexp]
  · intro hn
    simp only [startTrial, hfind, htr]
    rw [if_neg]
    simpa using hn

/-- C3 witness: a second start-trial request after the first trial expired
(trial granted at 0, expired at 500, request at 1000) is refused with 403 and
the store is unchanged. -/
theorem startTrial_existing_trial_witness :
    startTrial [("u", mkUser 0 (some ⟨0, 500, 0, true, 60⟩) none)] "u" 1000 =
      ([("u", mkUser 0 (some ⟨0, 500, 0, true, 60⟩) none)], .alreadyUsed) :=
  (startTrial_existing_trial _ "u" (mkUser 0 (some ⟨0, 500, 0, true, 60⟩) none)
      ⟨0, 500, 0, true, 60⟩ 1000 (by simp [Store.find]) rfl).2 (by simp)

/-! ## C6: the trial cap invariant -/

/-- C6.  Part one: whenever `consumeTrialMinutes` succeeds, the stored record
(the one its store now reports for the account) carries a trial with
`consumedMinutes ≤ maxMinutes`.  Part two: a call for an amount that would push
`consumedMinutes` past `maxMinutes` fails with an error and leaves the stored
account — trial record included — exactly as it was. -/
theorem consumeTrialMinutes_cap :
    (∀ (s : Store) (uid : String) (m : ℚ) (t : Int) (s' : Store) (u' : UserAccount),
        consumeTrialMinutes s uid m t = .ok (s', u') →
        ∃ tr', u'.trial = some tr' ∧ tr'.consumedMinutes ≤ tr'.maxMinutes ∧
          s'.find uid = some u') ∧
    (∀ (s : Store) (uid : String) (m : ℚ) (t : Int) (u : UserAccount) (tr : TrialInfo),
        s.find uid = some u → u.trial = some tr →
        tr.maxMinutes < tr.consumedMinutes + m →
        (runOp s (.consumeTrialMinutes uid m) t).1 = s ∧
          ∃ e, (runOp s (.consumeTrialMinutes uid m) t).2 = Except.error e) := by
  constructor
  · intro s uid m t s' u' h
    unfold consumeTrialMinutes at h
    cases hfind : s.find uid with
    | none => unfold updateUser at h; rw [hfind] at h; simp at h
    | some u0 =>
      cases hm : consumeTrialMinutesM m t u0 with
      | error e =>
        rw [updateUser_error s uid _ t u0 e hfind hm] at h
        simp at h
      | ok u1 =>
        rw [updateUser_ok s uid _ t u0 u1 hfind hm] at h
        simp only [Except.ok.injEq, Prod.mk.injEq] at h
        obtain ⟨hs', hu'⟩ := h
        simp only [consumeTrialMinutesM] at hm
        cases htr : u0.trial with
        | none => rw [htr] at hm; simp at hm
        | some tr =>
          rw [htr] at hm
          simp only at hm
          split_ifs at hm with h1 h2 h3
          · simp only [Except.ok.injEq] at hm
            refine ⟨{ tr with consumedMinutes := tr.consumedMinutes + m }, ?_, ?_, ?_⟩
            · rw [← hu', ← hm]
            · simpa using le_of_not_lt h3
            · rw [← hs', ← hu']
              exact Store.find_set_self s uid _
  · intro s uid m t u tr hfind htr hcap
    have herr : ∃ e, consumeTrialMinutesM m t u = .error e := by
      simp only [consumeTrialMinutesM, htr]
      split_ifs with h1 h2
      · exact ⟨_, rfl⟩
      · exact ⟨_, rfl⟩
      · exact ⟨_, rfl⟩
    obtain ⟨e, he⟩ := herr
    have hrun : runOp s (.consumeTrialMinutes uid m) t = (s, .error e) := by
      show liftUpdate s (consumeTrialMinutes s uid m t) = _
      unfold consumeTrialMinutes
      rw [updateUser_error s uid _ t u e hfind he]
      rfl
    rw [hrun]
    exact ⟨rfl, e, rfl⟩

/-- C6 witness: a trial at 59 of 60 minutes refuses a 2-minute consumption
(at time 100, before the expiry at 2000) with an error and an unchanged store. -/
theorem consumeTrialMinutes_cap_witness :
    (runOp [("u", mkUser 0 (some ⟨0, 2000, 59, true, 60⟩) none)]
        (.consumeTrialMinutes "u" 2) 100).1 =
      [("u", mkUser 0 (some ⟨0, 2000, 59, true, 60⟩) none)] ∧
    ∃ e, (runOp [("u", mkUser 0 (some ⟨0, 2000, 59, true, 60⟩) none)]
        (.consumeTrialMinutes "u" 2) 100).2 = Except.error e :=
  consumeTrialMinutes_cap.2 _ "u" 2 100
    (mkUser 0 (some ⟨0, 2000, 59, true, 60⟩) none) ⟨0, 2000, 59, true, 60⟩
    (by simp [Store.find]) rfl (by norm_num)

/-! ## C2: the wallet never goes negative -/

/-- Every record the document currently shows has a non-negative wallet. -/
def WalletInv (s : Store) : Prop :=
  ∀ uid u, s.find uid = some u → 0 ≤ u.walletBalancePaise

theorem walletInv_set (s : Store) (uid : String) (w : UserAccount)
    (h : WalletInv s) (hw : 0 ≤ w.walletBalancePaise) : WalletInv (s.set uid w) := by
  intro k v hv
  rcases Store.find_set_cases s uid k w v hv with hvw | hold
  · rw [hvw]; exact hw
  · exact h k v hold

theorem liftUpdate_walletInv (s : Store) (uid : String) (M : Mutator) (t : Int)
    (h : WalletInv s)
    (hM : ∀ u u', s.find uid = some u → M u = .ok u' → 0 ≤ u'.walletBalancePaise) :
    WalletInv (liftUpdate s (updateUser s uid M t)).1 := by
  cases hfind : s.find uid with
  | none =>
    have : updateUser s uid M t = .error ("User " ++ uid ++ " not found") := by
      simp [updateUser, hfind]
    rw [this]; exact h
  | some u =>
    cases hm : M u with
    | error e => rw [updateUser_error s uid M t u e hfind hm]; exact h
    | ok u' =>
      rw [updateUser_ok s uid M t u u' hfind hm]
      exact walletInv_set s uid _ h (hM u u' hfind hm)

theorem runOp_walletInv (s : Store) (op : LedgerOp) (t : Int) (h : WalletInv s) :
    WalletInv (runOp s op t).1 := by
  cases op with
  | getOrCreate uid profile =>
    show WalletInv (getOrCreateUser s uid profile t).1
    cases hfind : s.find uid with
    | some existing =>
      cases profile with
      | none => simpa [getOrCreateUser, hfind] using h
      | some p =>
        simp only [getOrCreateUser, hfind]
        exact walletInv_set s uid _ h (h uid existing hfind)
    | none =>
      simp only [getOrCreateUser, hfind]
      cases profile <;> exact walletInv_set s uid _ h (by norm_num)
  | adjustWallet uid δ =>
    refine liftUpdate_walletInv s uid _ t h ?_
    intro u u' _ hm
    simp only [adjustWalletM] at hm
    split_ifs at hm with hneg
    simp only [Except.ok.injEq] at hm
    rw [← hm]
    simpa using le_of_not_lt hneg
  | recordPayment uid ty amount planId oid pid =>
    refine liftUpdate_walletInv s uid _ t h ?_
    intro u u' hfind hm
    simp only [recordPaymentM, Except.ok.injEq] at hm
    rw [← hm]
    exact h uid u hfind
  | activatePlan uid p =>
    refine liftUpdate_walletInv s uid _ t h ?_
    intro u u' hfind hm
    simp only [activatePlanM, Except.ok.injEq] at hm
    rw [← hm]
    exact h uid u hfind
  | setTrialInfo uid tr =>
    refine liftUpdate_walletInv s uid _ t h ?_
    intro u u' hfind hm
    simp only [setTrialInfoM, Except.ok.injEq] at hm
    rw [← hm]
    exact h uid u hfind
  | clearTrial uid =>
    refine liftUpdate_walletInv s uid _ t h ?_
    intro u u' hfind hm
    simp only [clearTrialM, Except.ok.injEq] at hm
    rw [← hm]
    exact h uid u hfind
  | ensureActivePlanMinutes uid m =>
    refine liftUpdate_walletInv s uid _ t h ?_
    intro u u' hfind hm
    simp only [ensureActivePlanMinutesM] at hm
    cases hp : u.activePlan with
    | none => rw [hp] at hm; simp at hm
    | some p =>
      rw [hp] at hm
      simp only at hm
      split_ifs at hm
      simp only [Except.ok.injEq] at hm
      rw [← hm]
      exact h uid u hfind
  | consumeTrialMinutes uid m =>
    refine liftUpdate_walletInv s uid _ t h ?_
    intro u u' hfind hm
    simp only [consumeTrialMinutesM] at hm
    cases htr : u.trial with
    | none => rw [htr] at hm; simp at hm
    | some tr =>
      rw [htr] at hm
      simp only at hm
      split_ifs at hm
      simp only [Except.ok.injEq] at hm
      rw [← hm]
      exact h uid u hfind

/-- C2.  Part one: `walletBalance ≥ 0` is preserved by every sequence of
ledger operations run through the serialized queue.  Part two: an
`adjustWallet` whose delta would drive the balance negative fails with the
"Insufficient wallet balance" error and leaves the stored document — the
account record included — exactly as it was, because the document rewrite only
happens after the mutator returns without error. -/
theorem walletBalance_never_negative :
    (∀ (s : Store) (ops : List (LedgerOp × Int)),
        WalletInv s → WalletInv (runQueue s ops).1) ∧
    (∀ (s : Store) (uid : String) (δ t : Int) (u : UserAccount),
        s.find uid = some u → u.walletBalancePaise + δ < 0 →
        runOp s (.adjustWallet uid δ) t = (s, .error "Insufficient wallet balance")) := by
  constructor
  · intro s ops h
    induction ops generalizing s with
    | nil => simpa [runQueue] using h
    | cons hd tl ih =>
      obtain ⟨op, t⟩ := hd
      simpa [runQueue] using ih (runOp s op t).1 (runOp_walletInv s op t h)
  · intro s uid δ t u hfind hneg
    have hm : adjustWalletM δ u = .error "Insufficient wallet balance" := by
      simp [adjustWalletM, hneg]
    show liftUpdate s (adjustWallet s uid δ t) = _
    unfold adjustWallet
    rw [updateUser_error s uid _ t u _ hfind hm]
    rfl

/-- C2 witness: from a store holding one account with wallet 1000, a debit of
500 keeps the invariant, and a debit of 200 from a balance of 100 fails and
leaves the store untouched. -/
theorem walletBalance_never_negative_witness :
    WalletInv (runQueue [("u", mkUser 1000 none none)] [(.adjustWallet "u" (-500), 5)]).1 ∧
    runOp [("u", mkUser 100 none none)] (.adjustWallet "u" (-200)) 7 =
      ([("u", mkUser 100 none none)], .error "Insufficient wallet balance") := by
  constructor
  · refine walletBalance_never_negative.1 _ _ ?_
    intro uid u h
    simp only [Store.find] at h
    split_ifs at h
    simp only [Option.some.injEq] at h
    rw [← h]
    norm_num [mkUser]
  · exact walletBalance_never_negative.2 _ "u" (-200) 7 (mkUser 100 none none)
      (by simp [Store.find]) (by norm_num [mkUser])

/-! ## C9: the serialized mutation queue -/

/-- C9.  The queue model: (a)/(b) execution is sequential in FIFO arrival
order — running `l1 ++ l2` equals running `l1` and then running `l2` from the
store `l1` left, results concatenated in order; (c) every enqueued operation
delivers a result to its own caller (as many results as operations, a failure
never swallowing later ones), and concretely a failing over-debit leaves the
next operation to run and succeed; and two adjustWallet operations of +500 and
-200 on a starting balance of 1000 always settle at exactly 1300, in either
arrival order. -/
theorem queue_fifo_isolated_no_lost_update :
    (∀ (s : Store) (l1 l2 : List (LedgerOp × Int)),
        runQueue s (l1 ++ l2) =
          ((runQueue (runQueue s l1).1 l2).1,
            (runQueue s l1).2 ++ (runQueue (runQueue s l1).1 l2).2)) ∧
    (∀ (s : Store) (ops : List (LedgerOp × Int)),
        (runQueue s ops).2.length = ops.length) ∧
    (∀ t1 t2 : Int,
        ((runQueue [("u", mkUser 1000 none none)]
              [(.adjustWallet "u" 500, t1), (.adjustWallet "u" (-200), t2)]).1.find "u").map
            (fun u => u.walletBalancePaise) = some 1300) ∧
    (∀ t1 t2 : Int,
        ((runQueue [("u", mkUser 1000 none none)]
              [(.adjustWallet "u" (-200), t1), (.adjustWallet "u" 500, t2)]).1.find "u").map
            (fun u => u.walletBalancePaise) = some 1300) ∧
    (∀ t1 t2 : Int,
        ((runQueue [("u", mkUser 1000 none none)]
              [(.adjustWallet "u" (-5000), t1), (.adjustWallet "u" 500, t2)]).1.find "u").map
            (fun u => u.walletBalancePaise) = some 1500 ∧
          ∃ r, (runQueue [("u", mkUser 1000 none none)]
              [(.adjustWallet "u" (-5000), t1), (.adjustWallet "u" 500, t2)]).2 =
            [Except.error "Insufficient wallet balance", Except.ok r]) := by
  refine ⟨?_, ?_, ?_, ?_, ?_⟩
  · intro s l1 l2
    induction l1 generalizing s with
    | nil => simp [runQueue]
    | cons hd tl ih =>
      obtain ⟨op, t⟩ := hd
      simp [runQueue, ih]
  · intro s ops
    induction ops generalizing s with
    | nil => simp [runQueue]
    | cons hd tl ih =>
      obtain ⟨op, t⟩ := hd
      simp [runQueue, ih]
  · intro t1 t2
    norm_num [runQueue, runOp, adjustWallet, updateUser, adjustWalletM, liftUpdate,
      Store.find, Store.set, mkUser]
  · intro t1 t2
    norm_num [runQueue, runOp, adjustWallet, updateUser, adjustWalletM, liftUpdate,
      Store.find, Store.set, mkUser]
  · intro t1 t2
    norm_num [runQueue, runOp, adjustWallet, updateUser, adjustWalletM, liftUpdate,
      Store.find, Store.set, mkUser]

/-! ## Branch lemmas for the consume handler -/

theorem consume_plan (s : Store) (uid : String) (u : UserAccount) (p : ActivePlan)
    (m : ℚ) (t : Int) (hm : 0 < m) (hfind : s.find uid = some u)
    (hp : u.activePlan = some p) (hcov : m ≤ p.remainingMinutes) :
    consume s uid m t =
      (s.set uid { u with activePlan := some { p with remainingMinutes := p.remainingMinutes - m },
                          updatedAt := t }, .ok .plan none) := by
  have hne : ¬ m ≤ 0 := not_le.mpr hm
  have hok : activatePlan s uid { p with remainingMinutes := p.remainingMinutes - m } t =
      .ok (s.set uid { u with activePlan := some { p with remainingMinutes := p.remainingMinutes - m },
                              updatedAt := t },
           { u with activePlan := some { p with remainingMinutes := p.remainingMinutes - m },
                    updatedAt := t }) := by
    unfold activatePlan
    exact updateUser_ok s uid
      (activatePlanM { p with remainingMinutes := p.remainingMinutes - m }) t u
      { u with activePlan := some { p with remainingMinutes := p.remainingMinutes - m } }
      hfind rfl
  simp [consume, hne, hfind, hp, hcov, hok]

theorem consume_fallthrough (s : Store) (uid : String) (u : UserAccount)
    (m : ℚ) (t : Int) (hm : 0 < m) (hfind : s.find uid = some u)
    (hplan : planCovers u m = false) (htrial : trialCovers u m t = false) :
    consume s uid m t =
      (if ⌈m⌉ * WALLET_COST_PER_MINUTE_PAISE ≤ u.walletBalancePaise then
        match adjustWallet s uid (-(⌈m⌉ * WALLET_COST_PER_MINUTE_PAISE)) t with
        | .ok (s1, _) => (s1, .ok .wallet (some (⌈m⌉ * WALLET_COST_PER_MINUTE_PAISE)))
        | .error e => (s, .mutationError e)
      else (s, .insufficientBalance (⌈m⌉ * WALLET_COST_PER_MINUTE_PAISE))) := by
  have hne : ¬ m ≤ 0 := not_le.mpr hm
  have hplanNone : ∀ p, u.activePlan = some p → ¬ m ≤ p.remainingMinutes := by
    intro p hp
    simpa [planCovers, hp] using hplan
  cases hpa : u.activePlan with
  | some p =>
    cases htr : u.trial with
    | some tr =>
      by_cases h1 : tr.active = true ∧ t < tr.expiresAt
      · have hcapn : ¬ tr.consumedMinutes + m ≤ tr.maxMinutes := by
          simpa [trialCovers, htr, h1.1, h1.2] using htrial
        simp [consume, hne, hfind, hpa, hplanNone p hpa, htr, h1, hcapn]
      · simp [consume, hne, hfind, hpa, hplanNone p hpa, htr, h1]
    | none => simp [consume, hne, hfind, hpa, hplanNone p hpa, htr]
  | none =>
    cases htr : u.trial with
    | some tr =>
      by_cases h1 : tr.active = true ∧ t < tr.expiresAt
      · have hcapn : ¬ tr.consumedMinutes + m ≤ tr.maxMinutes := by
          simpa [trialCovers, htr, h1.1, h1.2] using htrial
        simp [consume, hne, hfind, hpa, htr, h1, hcapn]
      · simp [consume, hne, hfind, hpa, htr, h1]
    | none => simp [consume, hne, hfind, hpa, htr]

theorem consume_trial (s : Store) (uid : String) (u : UserAccount) (tr : TrialInfo)
    (m : ℚ) (t : Int) (hm : 0 < m) (hfind : s.find uid = some u)
    (hplan : planCovers u m = false) (htr : u.trial = some tr)
    (ha : tr.active = true) (hexp : t < tr.expiresAt)
    (hcap : tr.consumedMinutes + m ≤ tr.maxMinutes) :
    consume s uid m t =
      (s.set uid { u with trial := some { tr with consumedMinutes := tr.consumedMinutes + m },
                          updatedAt := t }, .ok .trial none) := by
  have hne : ¬ m ≤ 0 := not_le.mpr hm
  have hmok : consumeTrialMinutesM m t u =
      .ok { u with trial := some { tr with consumedMinutes := tr.consumedMinutes + m } } := by
    simp [consumeTrialMinutesM, htr, ha, lt_asymm hexp, not_lt.mpr hcap]
  have hok : consumeTrialMinutes s uid m t =
      .ok (s.set uid { u with trial := some { tr with consumedMinutes := tr.consumedMinutes + m },
                              updatedAt := t },
           { u with trial := some { tr with consumedMinutes := tr.consumedMinutes + m },
                    updatedAt := t }) := by
    unfold consumeTrialMinutes
    exact updateUser_ok s uid _ t u _ hfind hmok
  have hplanNone : ∀ p, u.activePlan = some p → ¬ m ≤ p.remainingMinutes := by
    intro p hp
    simpa [planCovers, hp] using hplan
  cases hpa : u.activePlan with
  | some p => simp [consume, hne, hfind, hpa, hplanNone p hpa, htr, ha, hexp, hcap, hok]
  | none => simp [consume, hne, hfind, hpa, htr, ha, hexp, hcap, hok]

theorem consume_wallet (s : Store) (uid : String) (u : UserAccount)
    (m : ℚ) (t : Int) (hm : 0 < m) (hfind : s.find uid = some u)
    (hplan : planCovers u m = false) (htrial : trialCovers u m t = false)
    (hw : ⌈m⌉ * WALLET_COST_PER_MINUTE_PAISE ≤ u.walletBalancePaise) :
    consume s uid m t =
      (s.set uid { u with
          walletBalancePaise := u.walletBalancePaise + -(⌈m⌉ * WALLET_COST_PER_MINUTE_PAISE),
          updatedAt := t },
        .ok .wallet (some (⌈m⌉ * WALLET_COST_PER_MINUTE_PAISE))) := by
  have hmok : adjustWalletM (-(⌈m⌉ * WALLET_COST_PER_MINUTE_PAISE)) u =
      .ok { u with
        walletBalancePaise := u.walletBalancePaise + -(⌈m⌉ * WALLET_COST_PER_MINUTE_PAISE) } := by
    have : ¬ u.walletBalancePaise + -(⌈m⌉ * WALLET_COST_PER_MINUTE_PAISE) < 0 := by omega
    simp [adjustWalletM, this]
  have hok : adjustWallet s uid (-(⌈m⌉ * WALLET_COST_PER_MINUTE_PAISE)) t =
      .ok (s.set uid { u with
            walletBalancePaise := u.walletBalancePaise + -(⌈m⌉ * WALLET_COST_PER_MINUTE_PAISE),
            updatedAt := t },
          { u with
            walletBalancePaise := u.walletBalancePaise + -(⌈m⌉ * WALLET_COST_PER_MINUTE_PAISE),
            updatedAt := t }) := by
    unfold adjustWallet
    exact updateUser_ok s uid _ t u _ hfind hmok
  rw [consume_fallthrough s uid u m t hm hfind hplan htrial]
  simp [hw, hok]

theorem consume_insufficient (s : Store) (uid : String) (u : UserAccount)
    (m : ℚ) (t : Int) (hm : 0 < m) (hfind : s.find uid = some u)
    (hplan : planCovers u m = false) (htrial : trialCovers u m t = false)
    (hw : u.walletBalancePaise < ⌈m⌉ * WALLET_COST_PER_MINUTE_PAISE) :
    consume s uid m t = (s, .insufficientBalance (⌈m⌉ * WALLET_COST_PER_MINUTE_PAISE)) := by
  rw [consume_fallthrough s uid u m t hm hfind hplan htrial]
  simp [not_le.mpr hw]

/-! ## C1: resolution order and the insufficient-funds outcome -/

/-- C1.  Part one: an account whose active plan covers the request has exactly
the requested minutes debited from the plan and the result reports
`source = plan`.  Part two: when the plan check, the trial checks and the
wallet check all fail, the request fails with `InsufficientBalance` carrying
the computed cost `⌈requested⌉ * WALLET_COST_PER_MINUTE_PAISE`, and the store —
hence every field of the account record — is unchanged. -/
theorem consume_resolution_and_insufficiency :
    (∀ (s : Store) (uid : String) (u : UserAccount) (p : ActivePlan) (m : ℚ) (t : Int),
        0 < m → s.find uid = some u → u.activePlan = some p → m ≤ p.remainingMinutes →
        consume s uid m t =
          (s.set uid { u with
              activePlan := some { p with remainingMinutes := p.remainingMinutes - m },
              updatedAt := t }, .ok .plan none)) ∧
    (∀ (s : Store) (uid : String) (u : UserAccount) (m : ℚ) (t : Int),
        0 < m → s.find uid = some u →
        planCovers u m = false → trialCovers u m t = false →
        u.walletBalancePaise < ⌈m⌉ * WALLET_COST_PER_MINUTE_PAISE →
        consume s uid m t = (s, .insufficientBalance (⌈m⌉ * WALLET_COST_PER_MINUTE_PAISE))) :=
  ⟨fun s uid u p m t hm hf hp hc => consume_plan s uid u p m t hm hf hp hc,
   fun s uid u m t hm hf hplan htrial hw => consume_insufficient s uid u m t hm hf hplan htrial hw⟩

/-- C1 witness: the spec scenario — plan with 0 remaining minutes, trial at
59 of 60 minutes (active, unexpired), wallet at 50 paise; a request for 2
minutes fails with `requiredPaise = 200` and the store is unchanged. -/
theorem consume_resolution_and_insufficiency_witness :
    consume [("u", mkUser 50 (some ⟨0, 2000, 59, true, 60⟩) (some ⟨.editorBasic, 0, some 9999, 0⟩))]
        "u" 2 1000 =
      ([("u", mkUser 50 (some ⟨0, 2000, 59, true, 60⟩) (some ⟨.editorBasic, 0, some 9999, 0⟩))],
        .insufficientBalance 200) := by
  have hceil : ⌈(2 : ℚ)⌉ = (2 : ℤ) := by
    rw [Int.ceil_eq_iff]; norm_num
  have h := consume_resolution_and_insufficiency.2
    [("u", mkUser 50 (some ⟨0, 2000, 59, true, 60⟩) (some ⟨.editorBasic, 0, some 9999, 0⟩))]
    "u" (mkUser 50 (some ⟨0, 2000, 59, true, 60⟩) (some ⟨.editorBasic, 0, some 9999, 0⟩))
    2 1000 (by norm_num) (by simp [Store.find])
    (by norm_num [planCovers, mkUser])
    (by norm_num [trialCovers, mkUser])
    (by rw [hceil]; norm_num [mkUser, WALLET_COST_PER_MINUTE_PAISE])
  rw [h, hceil]
  norm_num [WALLET_COST_PER_MINUTE_PAISE]

/-! ## C10: the plan branch never consults plan expiry -/

/-- C10.  The plan branch of entitlement resolution is taken for every account
whose `activePlan` has `remainingMinutes ≥ requested`, with no hypothesis on
`activePlan.expiresAt` whatsoever — in particular for a plan whose expiry lies
in the past — and the `ensureActivePlanMinutes` mutator likewise debits without
consulting expiry; no operation deactivates a plan for being past
`expiresAt`. -/
theorem plan_branch_ignores_expiry :
    (∀ (s : Store) (uid : String) (u : UserAccount) (p : ActivePlan) (m : ℚ) (t : Int),
        0 < m → s.find uid = some u → u.activePlan = some p → m ≤ p.remainingMinutes →
        consume s uid m t =
          (s.set uid { u with
              activePlan := some { p with remainingMinutes := p.remainingMinutes - m },
              updatedAt := t }, .ok .plan none)) ∧
    (∀ (u : UserAccount) (p : ActivePlan) (m : ℚ),
        u.activePlan = some p → m ≤ p.remainingMinutes →
        ensureActivePlanMinutesM m u =
          .ok { u with activePlan := some { p with remainingMinutes := p.remainingMinutes - m } }) := by
  constructor
  · exact fun s uid u p m t hm hf hp hc => consume_plan s uid u p m t hm hf hp hc
  · intro u p m hp hc
    simp [ensureActivePlanMinutesM, hp, not_lt.mpr hc]

/-- C10 witness: a plan that expired at time -5, consulted at time 1000 with
10 minutes remaining, still pays for a 2-minute request (debited to 8), and the
mutator debits it too. -/
theorem plan_branch_ignores_expiry_witness :
    consume [("u", mkUser 0 none (some ⟨.editorBasic, 0, some (-5), 10⟩))] "u" 2 1000 =
      ([("u", { mkUser 0 none (some ⟨.editorBasic, 0, some (-5), 8⟩) with updatedAt := 1000 })],
        .ok .plan none) ∧
    ensureActivePlanMinutesM 2 (mkUser 0 none (some ⟨.editorBasic, 0, some (-5), 10⟩)) =
      .ok (mkUser 0 none (some ⟨.editorBasic, 0, some (-5), 8⟩)) := by
  constructor
  · have h := plan_branch_ignores_expiry.1
      [("u", mkUser 0 none (some ⟨.editorBasic, 0, some (-5), 10⟩))] "u"
      (mkUser 0 none (some ⟨.editorBasic, 0, some (-5), 10⟩)) ⟨.editorBasic, 0, some (-5), 10⟩
      2 1000 (by norm_num) (by simp [Store.find]) rfl (by norm_num)
    rw [h]
    norm_num [Store.set, mkUser]
  · have h := plan_branch_ignores_expiry.2
      (mkUser 0 none (some ⟨.editorBasic, 0, some (-5), 10⟩)) ⟨.editorBasic, 0, some (-5), 10⟩
      2 rfl (by norm_num)
    rw [h]
    norm_num [mkUser]

/-! ## C5: what quantity each funding source is charged -/

/-- C5 counterexample.  A request for 1.5 minutes against a plan with 10
remaining minutes debits exactly 1.5 — the stored plan drops to 8.5 minutes,
not the 8 that a charge of `⌈1.5⌉ = 2` rounded-up minutes (as the claim states
for every funding source) would leave. -/
theorem fractional_plan_debit_counterexample :
    (((consume [("u", mkUser 0 none (some ⟨.editorBasic, 0, some 100, 10⟩))] "u" (3/2) 5).1.find
          "u").bind (fun v => v.activePlan.map (fun q => q.remainingMinutes)) =
        some (17/2)) ∧
    ((17 : ℚ)/2 ≠ 10 - ((⌈(3/2 : ℚ)⌉ : ℤ) : ℚ)) := by
  have hceil : ⌈(3/2 : ℚ)⌉ = (2 : ℤ) := by
    rw [Int.ceil_eq_iff]; norm_num
  constructor
  · have h := consume_plan
      [("u", mkUser 0 none (some ⟨.editorBasic, 0, some 100, 10⟩))] "u"
      (mkUser 0 none (some ⟨.editorBasic, 0, some 100, 10⟩)) ⟨.editorBasic, 0, some 100, 10⟩
      (3/2) 5 (by norm_num) (by simp [Store.find]) rfl (by norm_num)
    rw [h]
    simp [Store.set, Store.find, mkUser]
    norm_num
  · rw [hceil]
    norm_num

/-- C5 amended.  The requested quantity is only rounded up in the wallet
branch: the wallet cost is `⌈requested⌉ * WALLET_COST_PER_MINUTE_PAISE` (and
`⌈requested⌉ ≥ 1` for every positive request, so a fraction of a minute pays
for one full minute); the plan debit and the trial `consumedMinutes` increment
are the raw — possibly fractional — requested quantity. -/
theorem rounding_only_in_wallet_branch :
    (∀ m : ℚ, 0 < m → 1 ≤ ⌈m⌉) ∧
    (∀ (s : Store) (uid : String) (u : UserAccount) (p : ActivePlan) (m : ℚ) (t : Int),
        0 < m → s.find uid = some u → u.activePlan = some p → m ≤ p.remainingMinutes →
        consume s uid m t =
          (s.set uid { u with
              activePlan := some { p with remainingMinutes := p.remainingMinutes - m },
              updatedAt := t }, .ok .plan none)) ∧
    (∀ (s : Store) (uid : String) (u : UserAccount) (tr : TrialInfo) (m : ℚ) (t : Int),
        0 < m → s.find uid = some u → planCovers u m = false →
        u.trial = some tr → tr.active = true → t < tr.expiresAt →
        tr.consumedMinutes + m ≤ tr.maxMinutes →
        consume s uid m t =
          (s.set uid { u with
              trial := some { tr with consumedMinutes := tr.consumedMinutes + m },
              updatedAt := t }, .ok .trial none)) ∧
    (∀ (s : Store) (uid : String) (u : UserAccount) (m : ℚ) (t : Int),
        0 < m → s.find uid = some u → planCovers u m = false →
        trialCovers u m t = false →
        ⌈m⌉ * WALLET_COST_PER_MINUTE_PAISE ≤ u.walletBalancePaise →
        consume s uid m t =
          (s.set uid { u with
              walletBalancePaise :=
                u.walletBalancePaise + -(⌈m⌉ * WALLET_COST_PER_MINUTE_PAISE),
              updatedAt := t },
            .ok .wallet (some (⌈m⌉ * WALLET_COST_PER_MINUTE_PAISE)))) := by
  refine ⟨?_, ?_, ?_, ?_⟩
  · intro m hm
    have := Int.ceil_pos.mpr hm
    omega
  · exact fun s uid u p m t hm hf hp hc => consume_plan s uid u p m t hm hf hp hc
  · exact fun s uid u tr m t hm hf hplan htr ha hexp hcap =>
      consume_trial s uid u tr m t hm hf hplan htr ha hexp hcap
  · exact fun s uid u m t hm hf hplan htrial hw =>
      consume_wallet s uid u m t hm hf hplan htrial hw

/-- C5 witness: concrete instances of all four parts — `⌈3/2⌉ ≥ 1`; a plan
debit of exactly 3/2; a trial increment of exactly 3/2; and a wallet debit of
`⌈3/2⌉ * 100 = 200` paise for a 1.5-minute request. -/
theorem rounding_only_in_wallet_branch_witness :
    1 ≤ ⌈(3/2 : ℚ)⌉ ∧
    consume [("u", mkUser 0 none (some ⟨.creatorPro, 0, some 100, 10⟩))] "u" (3/2) 5 =
      ([("u", { mkUser 0 none (some ⟨.creatorPro, 0, some 100, 17/2⟩) with updatedAt := 5 })],
        .ok .plan none) ∧
    consume [("u", mkUser 0 (some ⟨0, 2000, 10, true, 60⟩) none)] "u" (3/2) 100 =
      ([("u", { mkUser 0 (some ⟨0, 2000, 23/2, true, 60⟩) none with updatedAt := 100 })],
        .ok .trial none) ∧
    consume [("u", mkUser 1000 none none)] "u" (3/2) 9 =
      ([("u", { mkUser 800 none none with updatedAt := 9 })],
        .ok .wallet (some 200)) := by
  have hceil : ⌈(3/2 : ℚ)⌉ = (2 : ℤ) := by
    rw [Int.ceil_eq_iff]; norm_num
  refine ⟨rounding_only_in_wallet_branch.1 (3/2) (by norm_num), ?_, ?_, ?_⟩
  · have h := rounding_only_in_wallet_branch.2.1
      [("u", mkUser 0 none (some ⟨.creatorPro, 0, some 100, 10⟩))] "u"
      (mkUser 0 none (some ⟨.creatorPro, 0, some 100, 10⟩)) ⟨.creatorPro, 0, some 100, 10⟩
      (3/2) 5 (by norm_num) (by simp [Store.find]) rfl (by norm_num)
    rw [h]
    norm_num [Store.set, mkUser]
  · have h := rounding_only_in_wallet_branch.2.2.1
      [("u", mkUser 0 (some ⟨0, 2000, 10, true, 60⟩) none)] "u"
      (mkUser 0 (some ⟨0, 2000, 10, true, 60⟩) none) ⟨0, 2000, 10, true, 60⟩
      (3/2) 100 (by norm_num) (by simp [Store.find])
      (by norm_num [planCovers, mkUser]) rfl rfl (by norm_num) (by norm_num)
    rw [h]
    norm_num [Store.set, mkUser]
  · have h := rounding_only_in_wallet_branch.2.2.2
      [("u", mkUser 1000 none none)] "u" (mkUser 1000 none none)
      (3/2) 9 (by norm_num) (by simp [Store.find])
      (by norm_num [planCovers, mkUser]) (by norm_num [trialCovers, mkUser])
      (by rw [hceil]; norm_num [mkUser, WALLET_COST_PER_MINUTE_PAISE])
    rw [h, hceil]
    norm_num [Store.set, mkUser, WALLET_COST_PER_MINUTE_PAISE]

/-! ## C7: an expired trial at consume time -/

/-- C7 counterexample.  An account whose trial expired at 500 (stored
`active = true`) making a request at time 1000 falls through to the wallet —
but the persisted trial record keeps `active = true`: the handler never flips
the stored flag on this path, contrary to the claim. -/
theorem expired_trial_flag_counterexample :
    (((consume [("u", mkUser 1000 (some ⟨0, 500, 0, true, 60⟩) none)] "u" 1 1000).1.find
          "u").bind (fun v => v.trial.map (fun tr => tr.active)) = some true) ∧
    ((consume [("u", mkUser 1000 (some ⟨0, 500, 0, true, 60⟩) none)] "u" 1 1000).2 =
        .ok .wallet (some 100)) := by
  have hceil : ⌈(1 : ℚ)⌉ = (1 : ℤ) := by
    rw [Int.ceil_eq_iff]; norm_num
  have h := consume_wallet
    [("u", mkUser 1000 (some ⟨0, 500, 0, true, 60⟩) none)] "u"
    (mkUser 1000 (some ⟨0, 500, 0, true, 60⟩) none) 1 1000
    (by norm_num) (by simp [Store.find])
    (by norm_num [planCovers, mkUser])
    (by norm_num [trialCovers, mkUser])
    (by rw [hceil]; norm_num [mkUser, WALLET_COST_PER_MINUTE_PAISE])
  rw [h, hceil]
  constructor
  · simp [Store.find_set_self, mkUser]
  · norm_num [WALLET_COST_PER_MINUTE_PAISE]

/-- C7 amended.  A usage request on an account whose trial has expired
(`expiresAt ≤ now`) and whose plan does not cover the request falls through to
the wallet branch (wallet debit or 402), and the persisted trial record is left
exactly as it was — in particular its `active` flag is NOT flipped to false on
this path (the flip happens only on a request-local copy in the status
handler, `statusView`, or on the copy `consumeTrialMinutes` discards when it
throws, neither of which is written back). -/
theorem expired_trial_falls_through_unchanged (s : Store) (uid : String)
    (u : UserAccount) (tr : TrialInfo) (m : ℚ) (t : Int)
    (hm : 0 < m) (hfind : s.find uid = some u) (htr : u.trial = some tr)
    (hplan : planCovers u m = false) (hexp : tr.expiresAt ≤ t) :
    (((consume s uid m t).1.find uid).bind (fun v => v.trial) = some tr) ∧
    ((consume s uid m t).2 = .ok .wallet (some (⌈m⌉ * WALLET_COST_PER_MINUTE_PAISE)) ∨
      (consume s uid m t).2 = .insufficientBalance (⌈m⌉ * WALLET_COST_PER_MINUTE_PAISE)) := by
  have htrialc : trialCovers u m t = false := by
    simp [trialCovers, htr, not_lt.mpr hexp]
  by_cases hw : ⌈m⌉ * WALLET_COST_PER_MINUTE_PAISE ≤ u.walletBalancePaise
  · rw [consume_wallet s uid u m t hm hfind hplan htrialc hw]
    refine ⟨?_, Or.inl rfl⟩
    simp [Store.find_set_self, htr]
  · rw [consume_insufficient s uid u m t hm hfind hplan htrialc (not_le.mp hw)]
    exact ⟨by simp [hfind, htr], Or.inr rfl⟩

/-- C7 witness: wallet of 30 paise cannot cover the 1-minute request after the
trial expired, so the request takes the wallet/402 fallthrough and the stored
trial record is untouched. -/
theorem expired_trial_falls_through_unchanged_witness :
    (((consume [("u", mkUser 30 (some ⟨0, 500, 7, true, 60⟩) none)] "u" 1 600).1.find
          "u").bind (fun v => v.trial) = some ⟨0, 500, 7, true, 60⟩) ∧
    ((consume [("u", mkUser 30 (some ⟨0, 500, 7, true, 60⟩) none)] "u" 1 600).2 =
        .ok .wallet (some (⌈(1 : ℚ)⌉ * WALLET_COST_PER_MINUTE_PAISE)) ∨
      (consume [("u", mkUser 30 (some ⟨0, 500, 7, true, 60⟩) none)] "u" 1 600).2 =
        .insufficientBalance (⌈(1 : ℚ)⌉ * WALLET_COST_PER_MINUTE_PAISE)) :=
  expired_trial_falls_through_unchanged
    [("u", mkUser 30 (some ⟨0, 500, 7, true, 60⟩) none)] "u"
    (mkUser 30 (some ⟨0, 500, 7, true, 60⟩) none) ⟨0, 500, 7, true, 60⟩ 1 600
    (by norm_num) (by simp [Store.find]) rfl
    (by norm_num [planCovers, mkUser]) (by norm_num)

/-! ## C4: the payment-confirmation signature gate -/

/-- C4.  Part one: any supplied signature different from the HMAC-SHA256 hex
digest of `orderId|paymentId` under the shared secret is rejected with
`InvalidSignature` and the store is untouched — no ledger mutation of any
kind.  Part two: for order id "order_1", payment id "pay_1" and secret
"s3cret", the recomputed digest is the fixed hex string below, and any request
that gets past the signature gate supplied exactly that string. -/
theorem confirm_signature_gate :
    (∀ (s : Store) (uid secret o p sig : String) (intent : Intent)
        (planId : Option PlanId) (amt : Option Int) (t : Int),
        o ≠ "" → p ≠ "" → sig ≠ "" → sig ≠ expectedSignature secret o p →
        confirm s uid secret o p sig intent planId amt t = (s, .invalidSignature)) ∧
    expectedSignature "s3cret" "order_1" "pay_1" =
      "44422d618d76e6e81c5f002f4d5108385750b52eb8db4e9c7a4231ddfac02840" ∧
    (∀ (s : Store) (uid sig : String) (intent : Intent)
        (planId : Option PlanId) (amt : Option Int) (t : Int),
        sig ≠ "" →
        (confirm s uid "s3cret" "order_1" "pay_1" sig intent planId amt t).2 ≠
          .invalidSignature →
        sig = "44422d618d76e6e81c5f002f4d5108385750b52eb8db4e9c7a4231ddfac02840") := by
  have hgate : ∀ (s : Store) (uid secret o p sig : String) (intent : Intent)
      (planId : Option PlanId) (amt : Option Int) (t : Int),
      o ≠ "" → p ≠ "" → sig ≠ "" → sig ≠ expectedSignature secret o p →
      confirm s uid secret o p sig intent planId amt t = (s, .invalidSignature) := by
    intro s uid secret o p sig intent planId amt t ho hp hsig hne
    simp [confirm, ho, hp, hsig, Ne.symm hne]
  have hdigest : expectedSignature "s3cret" "order_1" "pay_1" =
      "44422d618d76e6e81c5f002f4d5108385750b52eb8db4e9c7a4231ddfac02840" := by
    decide
  refine ⟨hgate, hdigest, ?_⟩
  intro s uid sig intent planId amt t hsig hpass
  by_cases heq : sig = expectedSignature "s3cret" "order_1" "pay_1"
  · rw [heq, hdigest]
  · exact absurd (by rw [hgate s uid "s3cret" "order_1" "pay_1" sig intent planId amt t
      (by decide) (by decide) hsig heq]) hpass

/-- C4 witness: the mismatching signature "x" on a wallet confirmation is
rejected with `InvalidSignature` and the store is unchanged. -/
theorem confirm_signature_gate_witness :
    confirm [("u", mkUser 0 none none)] "u" "s3cret" "order_1" "pay_1" "x"
        .wallet none (some 5000) 7 =
      ([("u", mkUser 0 none none)], .invalidSignature) :=
  confirm_signature_gate.1 [("u", mkUser 0 none none)] "u" "s3cret" "order_1" "pay_1" "x"
    .wallet none (some 5000) 7 (by decide) (by decide) (by decide) (by decide)

end Thanglish
